import Mathlib

/-!
Verification development for the user-interactive authentication (UIA) handler
of `synapse/handlers/auth.py` (class `AuthHandler`).

The Python module is shallowly embedded: dictionaries become association
lists over `String` keys, millisecond clock readings become `Int` values
supplied explicitly by the caller (the clock is an external collaborator),
and external collaborators (stage checkers, the bcrypt primitive, the
macaroon library and the macaroon verification API) become function
parameters.  Python exceptions become `Except` results; in-place mutation
of the shared session table becomes explicit state passing, where every
intermediate mutation of a session object is written back to the table at
the point where the Python code mutates the aliased dictionary.
-/

namespace SynapseAuth

/-- Error codes from `synapse.api.errors.Codes` used by `auth.py`. -/
inductive Codes where
  | UNRECOGNIZED
  | MISSING_PARAM
  | FORBIDDEN
  | CAPTCHA_NEEDED
  | UNAUTHORIZED
  | UNKNOWN_TOKEN
  | NOT_FOUND
deriving DecidableEq, Repr

/-- `LoginError(code, msg, errcode)` as raised throughout `auth.py`. -/
structure LoginError where
  code : Nat
  msg : String
  errcode : Codes
deriving DecidableEq, Repr

/-- `AuthError(code, msg, errcode)` raised by
`validate_short_term_login_token_and_get_user_id`. -/
structure AuthError where
  code : Nat
  msg : String
  errcode : Codes
deriving DecidableEq, Repr

/-- Values stored under the creds key of a session: per the `check_auth` docstring they
are "mostly str, but for captcha, bool", and for the email-identity stage a
dict; one constructor for each shape. -/
inductive Cred where
  | boolVal (b : Bool)
  | strVal (s : String)
  | dictVal (d : List (String × String))
deriving DecidableEq, Repr

/-- Non-auth request parameters (the client dict minus its `auth` key).
Values are opaque to the handler; modelled as strings. -/
abbrev Params : Type := List (String × String)

/-- First lookup in a string-keyed association list (Python dict read). -/
def alGet {α : Type} : List (String × α) → String → Option α
  | [], _ => none
  | (k2, v) :: rest, k => if k2 = k then some v else alGet rest k

/-- Python dict assignment `d[k] = v`: replace the entry at `k` if present,
otherwise append a new entry. -/
def alSet {α : Type} : List (String × α) → String → α → List (String × α)
  | [], k, v => [(k, v)]
  | (k2, w) :: rest, k, v =>
      if k2 = k then (k, v) :: rest else (k2, w) :: alSet rest k v

theorem alGet_alSet_self {α : Type} (l : List (String × α)) (k : String) (v : α) :
    alGet (alSet l k v) k = some v := by
  induction l with
  | nil => simp [alSet, alGet]
  | cons hd tl ih =>
      obtain ⟨k2, w⟩ := hd
      by_cases h : k2 = k
      · simp [alSet, alGet, h]
      · simp [alSet, alGet, h, ih]

theorem alGet_alSet_ne {α : Type} (l : List (String × α)) (k a : String) (v : α)
    (h : a ≠ k) : alGet (alSet l k v) a = alGet l a := by
  have hk : ¬ k = a := fun hh => h (Eq.symm hh)
  induction l with
  | nil => simp [alSet, alGet, hk]
  | cons hd tl ih =>
      obtain ⟨k2, w⟩ := hd
      by_cases h2 : k2 = k
      · subst h2
        simp [alSet, alGet, hk]
      · simp only [alSet, if_neg h2, alGet]
        by_cases h3 : k2 = a
        · simp [h3]
        · simp [h3, ih]

theorem mem_alSet_ne {α : Type} (l : List (String × α)) (k a : String) (v x : α)
    (h : a ≠ k) : (a, x) ∈ alSet l k v ↔ (a, x) ∈ l := by
  induction l with
  | nil => simp [alSet, Prod.ext_iff, h]
  | cons hd tl ih =>
      obtain ⟨k2, w⟩ := hd
      by_cases h2 : k2 = k
      · subst h2
        simp [alSet, List.mem_cons, Prod.ext_iff, h]
      · simp only [alSet, if_neg h2, List.mem_cons, ih]

theorem alGet_filter_keep {α : Type} (l : List (String × α)) (k : String) (v : α)
    (p : String × α → Bool) (hget : alGet l k = some v) (hp : p (k, v) = true) :
    alGet (l.filter p) k = some v := by
  induction l with
  | nil => simp [alGet] at hget
  | cons hd tl ih =>
      obtain ⟨k2, w⟩ := hd
      by_cases h2 : k2 = k
      · subst h2
        rw [alGet, if_pos rfl] at hget
        have hw : w = v := by simpa using hget
        subst hw
        simp [List.filter_cons, hp, alGet]
      · rw [alGet, if_neg h2] at hget
        by_cases hpk : p (k2, w) = true
        · simp [List.filter_cons, hpk, alGet, h2, ih hget]
        · simp [List.filter_cons, hpk, ih hget]

/-- A UIA session record (`self.sessions[sid]`).  Python represents it as a
dict whose keys appear over time; optional fields model key absence. -/
structure Session where
  id : String
  clientdict : Option Params
  creds : Option (List (String × Cred))
  serverdict : Option Params
  last_used : Option Int
deriving DecidableEq, Repr

/-- The in-memory session table `self.sessions`. -/
abbrev Table : Type := List (String × Session)

/-- `AuthHandler.SESSION_EXPIRE_MS = 48 * 60 * 60 * 1000`. -/
def SESSION_EXPIRE_MS : Int := 48 * 60 * 60 * 1000

/-- `_prune_sessions`: delete every record whose `last_used` (0 when the key
is absent) is older than `now - SESSION_EXPIRE_MS`. -/
def prune_sessions (st : Table) (now : Int) : Table :=
  st.filter (fun p => ! decide (p.2.last_used.getD 0 < now - SESSION_EXPIRE_MS))

/-- `_save_session`: stamp `last_used = now`, write the record back under its
id, then prune.  Returns the stamped session (the Python code mutates the
aliased dict, so the local variable held by the caller sees the new timestamp too)
together with the new table. -/
def save_session (st : Table) (sess : Session) (now : Int) : Session × Table :=
  let s2 : Session := { sess with last_used := some now }
  (s2, prune_sessions (alSet st s2.id s2) now)

/-- A bare newly-created session record `{"id": session_id}`. -/
def blank_session (sid : String) : Session :=
  { id := sid, clientdict := none, creds := none, serverdict := none, last_used := none }

/-- Create-and-insert branch of `_get_session_info`.  The Python code draws
random 24-character ids until one is unused; the embedding receives the
drawn id `fresh` from the caller (theorems assume it is not already a key). -/
def mk_fresh_session (st : Table) (fresh : String) : Session × Table :=
  let sess := blank_session fresh
  (sess, alSet st fresh sess)

/-- `_get_session_info`: an id that is unknown to the table is discarded
(`session_id = None`); a discarded, absent or empty id leads to a freshly
created record; otherwise the stored record is returned unchanged. -/
def get_session_info (st : Table) (session_id : Option String) (fresh : String) :
    Session × Table :=
  match session_id with
  | some s =>
      match alGet st s with
      | some sess => if s = "" then mk_fresh_session st fresh else (sess, st)
      | none => mk_fresh_session st fresh
  | none => mk_fresh_session st fresh

/-- `LoginType.PASSWORD` from `synapse.api.constants`. -/
def LoginType.PASSWORD : String := "m.login.password"

/-- `LoginType.RECAPTCHA` from `synapse.api.constants`. -/
def LoginType.RECAPTCHA : String := "m.login.recaptcha"

/-- `LoginType.EMAIL_IDENTITY` from `synapse.api.constants`. -/
def LoginType.EMAIL_IDENTITY : String := "m.login.email.identity"

/-- `LoginType.DUMMY` from `synapse.api.constants`. -/
def LoginType.DUMMY : String := "m.login.dummy"

/-- The `auth` sub-object of a client request: optional session id,
optional stage type, and the stage-specific fields. -/
structure AuthDict where
  session : Option String
  atype : Option String
  fields : Params
deriving DecidableEq, Repr

/-- The root-level request dict of the client, split into its `auth` key (when
present) and the remaining non-auth parameters.  The Python dict is truthy
with an `auth` key exactly when `auth` is `some`. -/
structure ClientDict where
  auth : Option AuthDict
  params : Params
deriving DecidableEq, Repr

/-- A stage checker `(authdict, clientip) → result`: each checker performs
external I/O (password store, CAPTCHA endpoint, identity server), so its
resolved outcome for this call is a collaborator function.  `Except.error`
models a raised `LoginError`; `Except.ok none` a falsy result; and
`Except.ok (some c)` a truthy credential value. -/
abbrev Checker : Type := AuthDict → String → Except LoginError (Option Cred)

/-- `self.checkers`: the stage-id-keyed checker registry. -/
abbrev CheckerMap : Type := String → Option Checker

/-- The flow-advertisement response built by `_auth_dict_for_flows`,
optionally annotated with the `completed` stage list. The only
stage-specific public parameter is the recaptcha public key, stored under
the recaptcha stage id. -/
structure FlowResponse where
  session : String
  flows : List (List String)
  params : List (String × String)
  completed : Option (List String)
deriving DecidableEq, Repr

/-- `_auth_dict_for_flows(flows, session)`: advertise the session id, every
acceptable flow, and per-stage public parameters (only the recaptcha stage
has one, `self.hs.config.recaptcha_public_key`, added once). -/
def auth_dict_for_flows (recaptcha_public_key : String)
    (flows : List (List String)) (session_id : String) : FlowResponse :=
  let params := flows.foldl (fun acc f =>
    f.foldl (fun acc2 stage =>
      if stage == LoginType.RECAPTCHA && (alGet acc2 stage).isNone then
        alSet acc2 stage recaptcha_public_key
      else acc2) acc) []
  { session := session_id, flows := flows, params := params, completed := none }

/-- The 4-tuple returned by `check_auth`, flattened: `authed`, the
credential map (first tuple slot when authed), the flow-advertisement
response (first tuple slot when not authed), the effective request
parameters, and the session id. -/
structure CheckAuthResult where
  authed : Bool
  creds : List (String × Cred)
  response : Option FlowResponse
  params : Params
  sid : String
deriving DecidableEq, Repr

/-- `len(set(f) - set(creds.keys())) == 0`: every stage of the flow has an
entry in the credential map. -/
def flow_completed (creds : List (String × Cred)) (f : List String) : Bool :=
  (f.filter (fun stage => (alGet creds stage).isNone)).isEmpty

/-- The completion loop of `check_auth`: some acceptable flow is satisfied. -/
def any_flow_completed (flows : List (List String)) (creds : List (String × Cred)) : Bool :=
  flows.any (fun f => flow_completed creds f)

/-- Step 3 of `check_auth`: non-empty remaining params are stored into
the clientdict key of the session and the session is saved; empty params are
replaced by a previously stored `clientdict` when one exists. -/
def store_or_restore_params (st : Table) (session : Session) (params : Params)
    (now : Int) : Params × Session × Table :=
  if params.isEmpty then
    match session.clientdict with
    | some stored => (stored, session, st)
    | none => (params, session, st)
  else
    let s2 : Session := { session with clientdict := some params }
    let pr := save_session st s2 now
    (params, pr.1, pr.2)

/-- Initialize the creds key of the session to an empty dict when absent. -/
def ensure_creds (session : Session) : Session :=
  if session.creds.isNone then { session with creds := some [] } else session

/-- The credential map of a session, `{}` when the `creds` key is absent. -/
def credsOf (sess : Session) : List (String × Cred) :=
  sess.creds.getD []

/-- The credential map stored in the table under `sid`. -/
def credsAt (st : Table) (sid : String) : List (String × Cred) :=
  match alGet st sid with
  | some sess => credsOf sess
  | none => []

/-- `check_auth(flows, clientdict, clientip)` as a state transformer on the
session table.  `now` is the clock reading for this call and `fresh` the
random id drawn if a session must be created.  Every in-place mutation of
the aliased session dict is written back to the table at the corresponding
point; a raised `LoginError` is returned as `Except.error` together with
the table as mutated so far. -/
def check_auth (checkers : CheckerMap) (recaptcha_public_key : String)
    (now : Int) (fresh : String) (flows : List (List String))
    (clientdict : ClientDict) (clientip : String) (st : Table) :
    Table × Except LoginError CheckAuthResult :=
  let authdict := clientdict.auth
  let sid : Option String :=
    match authdict with
    | some a => a.session
    | none => none
  let pr1 := get_session_info st sid fresh
  let pr2 := store_or_restore_params pr1.2 pr1.1 clientdict.params now
  let params := pr2.1
  let session1 := pr2.2.1
  let st2 := pr2.2.2
  match authdict with
  | none =>
      (st2, Except.ok
        { authed := false, creds := [],
          response := some (auth_dict_for_flows recaptcha_public_key flows session1.id),
          params := params, sid := session1.id })
  | some a =>
      let session2 := ensure_creds session1
      let st3 := alSet st2 session2.id session2
      let creds := credsOf session2
      let step : Table × Except LoginError (List (String × Cred) × Session) :=
        match a.atype with
        | none => (st3, Except.ok (creds, session2))
        | some t =>
            match checkers t with
            | none =>
                (st3, Except.error { code := 400, msg := "", errcode := Codes.UNRECOGNIZED })
            | some chk =>
                match chk a clientip with
                | Except.error e => (st3, Except.error e)
                | Except.ok none => (st3, Except.ok (creds, session2))
                | Except.ok (some result) =>
                    let creds2 := alSet creds t result
                    let session3 : Session := { session2 with creds := some creds2 }
                    let pr3 := save_session st3 session3 now
                    (pr3.2, Except.ok (creds2, pr3.1))
      match step with
      | (st4, Except.error e) => (st4, Except.error e)
      | (st4, Except.ok (creds2, session4)) =>
          if any_flow_completed flows creds2 then
            (st4, Except.ok
              { authed := true, creds := creds2, response := none,
                params := params, sid := session4.id })
          else
            let base := auth_dict_for_flows recaptcha_public_key flows session4.id
            (st4, Except.ok
              { authed := false, creds := creds2,
                response := some ({ base with
                  completed := some (creds2.map Prod.fst) } : FlowResponse),
                params := params, sid := session4.id })

/-- `add_oob_auth(stagetype, authdict, clientip)`: out-of-band injection of
the checker result of one stage into the session named by the session id of the auth dict. -/
def add_oob_auth (checkers : CheckerMap) (now : Int) (fresh : String)
    (stagetype : String) (authdict : AuthDict) (clientip : String) (st : Table) :
    Table × Except LoginError Bool :=
  match checkers stagetype with
  | none => (st, Except.error { code := 400, msg := "", errcode := Codes.MISSING_PARAM })
  | some chk =>
      match authdict.session with
      | none => (st, Except.error { code := 400, msg := "", errcode := Codes.MISSING_PARAM })
      | some _ =>
          let pr1 := get_session_info st authdict.session fresh
          let sess := ensure_creds pr1.1
          let st2 := alSet pr1.2 sess.id sess
          let creds := credsOf sess
          match chk authdict clientip with
          | Except.error e => (st2, Except.error e)
          | Except.ok none => (st2, Except.ok false)
          | Except.ok (some result) =>
              let creds2 := alSet creds stagetype result
              let sess2 : Session := { sess with creds := some creds2 }
              let pr3 := save_session st2 sess2 now
              (pr3.2, Except.ok true)

theorem store_params_session_id (st : Table) (s : Session) (p : Params) (now : Int) :
    (store_or_restore_params st s p now).2.1.id = s.id := by
  unfold store_or_restore_params save_session
  by_cases hp : p.isEmpty
  · cases s.clientdict <;> simp [hp]
  · simp [hp]

theorem store_params_session_creds (st : Table) (s : Session) (p : Params) (now : Int) :
    (store_or_restore_params st s p now).2.1.creds = s.creds := by
  unfold store_or_restore_params save_session
  by_cases hp : p.isEmpty
  · cases s.clientdict <;> simp [hp]
  · simp [hp]

theorem ensure_creds_id (s : Session) : (ensure_creds s).id = s.id := by
  unfold ensure_creds
  by_cases h : s.creds.isNone <;> simp [h]

theorem ensure_creds_creds (s : Session) : (ensure_creds s).creds = some (credsOf s) := by
  unfold ensure_creds credsOf
  cases h : s.creds <;> simp [h]

theorem credsOf_ensure_creds (s : Session) : credsOf (ensure_creds s) = credsOf s := by
  rw [credsOf, ensure_creds_creds, Option.getD_some]

theorem alGet_save_session_self (st : Table) (s : Session) (now : Int) :
    alGet (save_session st s now).2 s.id = some { s with last_used := some now } := by
  unfold save_session prune_sessions
  apply alGet_filter_keep
  · exact alGet_alSet_self st s.id { s with last_used := some now }
  · simp [SESSION_EXPIRE_MS]

theorem any_flow_completed_iff (flows : List (List String)) (creds : List (String × Cred)) :
    any_flow_completed flows creds = true ↔
      ∃ f ∈ flows, ∀ stage ∈ f, (alGet creds stage).isSome := by
  unfold any_flow_completed flow_completed
  rw [List.any_eq_true]
  constructor
  · rintro ⟨f, hf, hempty⟩
    refine ⟨f, hf, ?_⟩
    intro stage hstage
    rw [List.isEmpty_iff] at hempty
    have hnmem := List.filter_eq_nil_iff.mp hempty stage hstage
    cases halg : alGet creds stage with
    | none => simp [halg] at hnmem
    | some c => simp
  · rintro ⟨f, hf, hall⟩
    refine ⟨f, hf, ?_⟩
    rw [List.isEmpty_iff, List.filter_eq_nil_iff]
    intro stage hstage
    have := hall stage hstage
    cases halg : alGet creds stage with
    | none => simp [halg] at this
    | some c => simp [halg]

/-- C9: `add_oob_auth` fails with a 400 missing-parameter error when the
stage is not a registered checker or when the auth dict carries no session
id; otherwise, against an existing session, a truthy checker result is
recorded under the stage type and the session saved (returning true), and
a falsy result records nothing (returning false). -/
theorem add_oob_auth_spec (checkers : CheckerMap) (now : Int)
    (fresh stagetype ip : String) (authdict : AuthDict) (st : Table) :
    (checkers stagetype = none →
        add_oob_auth checkers now fresh stagetype authdict ip st
          = (st, Except.error { code := 400, msg := "", errcode := Codes.MISSING_PARAM })) ∧
      (∀ chk : Checker, checkers stagetype = some chk → authdict.session = none →
        add_oob_auth checkers now fresh stagetype authdict ip st
          = (st, Except.error { code := 400, msg := "", errcode := Codes.MISSING_PARAM })) ∧
      (∀ s sess, authdict.session = some s → s ≠ "" → alGet st s = some sess →
        sess.id = s →
        ∀ chk : Checker, checkers stagetype = some chk →
        (∀ c, chk authdict ip = Except.ok (some c) →
          ∃ st2, add_oob_auth checkers now fresh stagetype authdict ip st
              = (st2, Except.ok true) ∧
            credsAt st2 s = alSet (credsOf sess) stagetype c ∧
            (∃ sess2, alGet st2 s = some sess2 ∧ sess2.last_used = some now)) ∧
        (chk authdict ip = Except.ok none →
          ∃ st2, add_oob_auth checkers now fresh stagetype authdict ip st
              = (st2, Except.ok false) ∧
            credsAt st2 s = credsOf sess)) := by
  refine ⟨?_, ?_, ?_⟩
  · intro hnone
    unfold add_oob_auth
    rw [hnone]
  · intro chk hchk hnosid
    unfold add_oob_auth
    rw [hchk, hnosid]
  · intro s sess hsid hne hfound hid chk hchk
    have hgsi : get_session_info st (some s) fresh = (sess, st) := by
      simp [get_session_info, hfound, hne]
    constructor
    · intro c htruthy
      unfold add_oob_auth
      rw [hchk, hsid]
      simp only [hgsi, htruthy]
      have hid2 : ({ ensure_creds sess with
          creds := some (alSet (credsOf (ensure_creds sess)) stagetype c) } : Session).id
            = s := by
        simp [ensure_creds_id, hid]
      have h3 := credsOf_ensure_creds sess
      refine ⟨_, rfl, ?_, ?_⟩
      · rw [credsAt]
        rw [← hid2, alGet_save_session_self]
        simp only [credsOf] at h3 ⊢
        simp [h3]
      · refine ⟨{ ensure_creds sess with
            creds := some (alSet (credsOf (ensure_creds sess)) stagetype c),
            last_used := some now }, ?_, rfl⟩
        rw [← hid2, alGet_save_session_self]
    · intro hfalsy
      unfold add_oob_auth
      rw [hchk, hsid]
      simp only [hgsi, hfalsy]
      refine ⟨_, rfl, ?_⟩
      rw [credsAt]
      have hid2 : (ensure_creds sess).id = s := by rw [ensure_creds_id, hid]
      rw [← hid2, alGet_alSet_self]
      exact credsOf_ensure_creds sess

/-- Concrete one-entry registry used to exercise `add_oob_auth_spec`. -/
def c9checkers : CheckerMap := fun t =>
  if t = "stage" then some (fun _ _ => Except.ok (some (Cred.boolVal true))) else none

/-- Concrete auth dict carrying no session id. -/
def c9auth : AuthDict := { session := none, atype := none, fields := [] }

theorem add_oob_auth_spec_witness :
    (c9checkers "stage" = none →
        add_oob_auth c9checkers 5 "F" "stage" c9auth "ip" []
          = ([], Except.error { code := 400, msg := "", errcode := Codes.MISSING_PARAM })) ∧
      (∀ chk : Checker, c9checkers "stage" = some chk → c9auth.session = none →
        add_oob_auth c9checkers 5 "F" "stage" c9auth "ip" []
          = ([], Except.error { code := 400, msg := "", errcode := Codes.MISSING_PARAM })) ∧
      (∀ s sess, c9auth.session = some s → s ≠ "" → alGet [] s = some sess →
        sess.id = s →
        ∀ chk : Checker, c9checkers "stage" = some chk →
        (∀ c, chk c9auth "ip" = Except.ok (some c) →
          ∃ st2, add_oob_auth c9checkers 5 "F" "stage" c9auth "ip" []
              = (st2, Except.ok true) ∧
            credsAt st2 s = alSet (credsOf sess) "stage" c ∧
            (∃ sess2, alGet st2 s = some sess2 ∧ sess2.last_used = some 5)) ∧
        (chk c9auth "ip" = Except.ok none →
          ∃ st2, add_oob_auth c9checkers 5 "F" "stage" c9auth "ip" []
              = (st2, Except.ok false) ∧
            credsAt st2 s = credsOf sess)) := by
  exact add_oob_auth_spec c9checkers 5 "F" "stage" "ip" c9auth []

/-- C2: for a `check_auth` call presenting stage `t` against an existing
session, a checker that raises propagates the error and leaves the
credential map of the session exactly as it was; a falsy checker result also
leaves it unchanged; only a truthy result adds the entry under the
presented stage type and saves the session (stamping `last_used = now`). -/
theorem check_auth_checker_outcome_creds (checkers : CheckerMap)
    (pk ip fresh : String) (now : Int) (flows : List (List String))
    (clientdict : ClientDict) (a : AuthDict) (s t : String) (chk : Checker)
    (st st2 : Table) (res : Except LoginError CheckAuthResult) (sess : Session)
    (ha : clientdict.auth = some a) (hsid : a.session = some s) (hne : s ≠ "")
    (hfound : alGet st s = some sess) (hid : sess.id = s)
    (hat : a.atype = some t) (hchk : checkers t = some chk)
    (hres : check_auth checkers pk now fresh flows clientdict ip st = (st2, res)) :
    (∀ e, chk a ip = Except.error e →
        res = Except.error e ∧ credsAt st2 s = credsOf sess) ∧
      (chk a ip = Except.ok none →
        (∃ r, res = Except.ok r) ∧ credsAt st2 s = credsOf sess) ∧
      (∀ c, chk a ip = Except.ok (some c) →
        (∃ r, res = Except.ok r) ∧
        credsAt st2 s = alSet (credsOf sess) t c ∧
        (∃ sess2, alGet st2 s = some sess2 ∧ sess2.last_used = some now)) := by
  have hgsi : get_session_info st (some s) fresh = (sess, st) := by
    simp [get_session_info, hfound, hne]
  unfold check_auth at hres
  rw [ha] at hres
  simp only [hsid, hgsi, hat, hchk] at hres
  cases hsp : store_or_restore_params st sess clientdict.params now with
  | mk p1 q =>
    cases q with
    | mk sess1 st1 =>
      rw [hsp] at hres
      simp only at hres
      have hids : sess1.id = s := by
        have h4 := store_params_session_id st sess clientdict.params now
        rw [hsp] at h4
        simpa [hid] using h4
      have hcreds1 : sess1.creds = sess.creds := by
        have h4 := store_params_session_creds st sess clientdict.params now
        rw [hsp] at h4
        exact h4
      have hide : (ensure_creds sess1).id = s := by rw [ensure_creds_id, hids]
      have hcredse : credsOf (ensure_creds sess1) = credsOf sess := by
        rw [credsOf_ensure_creds]
        unfold credsOf
        rw [hcreds1]
      refine ⟨?_, ?_, ?_⟩
      · intro e herr
        rw [herr] at hres
        simp only at hres
        injection hres with hst hr
        subst hst
        subst hr
        refine ⟨rfl, ?_⟩
        unfold credsAt
        rw [← hide, alGet_alSet_self]
        exact hcredse
      · intro hfalsy
        rw [hfalsy] at hres
        simp only at hres
        by_cases hf : any_flow_completed flows (credsOf (ensure_creds sess1))
        · rw [if_pos hf] at hres
          injection hres with hst hr
          subst hst
          subst hr
          refine ⟨⟨_, rfl⟩, ?_⟩
          unfold credsAt
          rw [← hide, alGet_alSet_self]
          exact hcredse
        · rw [if_neg hf] at hres
          injection hres with hst hr
          subst hst
          subst hr
          refine ⟨⟨_, rfl⟩, ?_⟩
          unfold credsAt
          rw [← hide, alGet_alSet_self]
          exact hcredse
      · intro c htruthy
        rw [htruthy] at hres
        simp only at hres
        have hid3 : ({ ensure_creds sess1 with
            creds := some (alSet (credsOf (ensure_creds sess1)) t c) } : Session).id
              = s := by
          simpa [ensure_creds_id] using hids
        have hmain : credsAt
            (save_session
              (alSet st1 (ensure_creds sess1).id (ensure_creds sess1))
              { ensure_creds sess1 with
                creds := some (alSet (credsOf (ensure_creds sess1)) t c) } now).2 s
              = alSet (credsOf sess) t c := by
          unfold credsAt
          rw [← hid3, alGet_save_session_self]
          simp only [credsOf, Option.getD_some]
          have h5 := hcredse
          unfold credsOf at h5
          rw [h5]
        have hlast : ∃ sess2,
            alGet (save_session
              (alSet st1 (ensure_creds sess1).id (ensure_creds sess1))
              { ensure_creds sess1 with
                creds := some (alSet (credsOf (ensure_creds sess1)) t c) } now).2 s
              = some sess2 ∧ sess2.last_used = some now := by
          refine ⟨{ ensure_creds sess1 with
              creds := some (alSet (credsOf (ensure_creds sess1)) t c),
              last_used := some now }, ?_, rfl⟩
          rw [← hid3, alGet_save_session_self]
        by_cases hf : any_flow_completed flows (alSet (credsOf (ensure_creds sess1)) t c)
        · rw [if_pos hf] at hres
          injection hres with hst hr
          subst hst
          subst hr
          exact ⟨⟨_, rfl⟩, hmain, hlast⟩
        · rw [if_neg hf] at hres
          injection hres with hst hr
          subst hst
          subst hr
          exact ⟨⟨_, rfl⟩, hmain, hlast⟩

/-- C1: whenever a `check_auth` call that presents an `auth` block returns
without raising, it reports completion (`authed = true`, returning the
credential map) exactly when some acceptable flow has every one of its
stage identifiers present as a key of the stored credential map of the session
— a subset test on keys, so independent of the order the credentials were
earned — and the returned credential map is the one held in the session. -/
theorem check_auth_completion_iff (checkers : CheckerMap) (pk ip fresh : String)
    (now : Int) (flows : List (List String)) (clientdict : ClientDict)
    (a : AuthDict) (st st2 : Table) (r : CheckAuthResult)
    (ha : clientdict.auth = some a)
    (hres : check_auth checkers pk now fresh flows clientdict ip st
      = (st2, Except.ok r)) :
    (r.authed = true ↔
        ∃ f ∈ flows, ∀ stage ∈ f, (alGet (credsAt st2 r.sid) stage).isSome) ∧
      r.creds = credsAt st2 r.sid := by
  unfold check_auth at hres
  simp only [ha] at hres
  cases hgsi : get_session_info st a.session fresh with
  | mk sess0 st0 =>
    rw [hgsi] at hres
    simp only at hres
    cases hsp : store_or_restore_params st0 sess0 clientdict.params now with
    | mk p1 q =>
      cases q with
      | mk sess1 st1 =>
        rw [hsp] at hres
        simp only at hres
        have hca : credsAt (alSet st1 (ensure_creds sess1).id (ensure_creds sess1))
            (ensure_creds sess1).id = credsOf (ensure_creds sess1) := by
          unfold credsAt
          rw [alGet_alSet_self]
        have hiff := fun cr => any_flow_completed_iff flows cr
        cases hat : a.atype with
        | none =>
            simp only [hat] at hres
            by_cases hf : any_flow_completed flows (credsOf (ensure_creds sess1))
            · rw [if_pos hf] at hres
              injection hres with hst hr
              injection hr with hr
              subst hst
              subst hr
              refine ⟨?_, ?_⟩
              · simp only [hca]
                exact ⟨fun _ => (hiff _).mp hf, fun _ => trivial⟩
              · simp only [hca]
            · rw [if_neg hf] at hres
              injection hres with hst hr
              injection hr with hr
              subst hst
              subst hr
              refine ⟨?_, ?_⟩
              · simp only [hca]
                constructor
                · intro habs
                  exact absurd habs (by simp)
                · intro hex
                  exact absurd ((hiff _).mpr hex) hf
              · simp only [hca]
        | some t =>
            simp only [hat] at hres
            cases hckr : checkers t with
            | none =>
                rw [hckr] at hres
                simp only at hres
                injection hres with hst hr
                exact Except.noConfusion hr
            | some chk =>
                rw [hckr] at hres
                simp only at hres
                cases hch : chk a ip with
                | error e =>
                    rw [hch] at hres
                    simp only at hres
                    injection hres with hst hr
                    exact Except.noConfusion hr
                | ok copt =>
                    rw [hch] at hres
                    cases copt with
                    | none =>
                        simp only at hres
                        by_cases hf : any_flow_completed flows (credsOf (ensure_creds sess1))
                        · rw [if_pos hf] at hres
                          injection hres with hst hr
                          injection hr with hr
                          subst hst
                          subst hr
                          refine ⟨?_, ?_⟩
                          · simp only [hca]
                            exact ⟨fun _ => (hiff _).mp hf, fun _ => trivial⟩
                          · simp only [hca]
                        · rw [if_neg hf] at hres
                          injection hres with hst hr
                          injection hr with hr
                          subst hst
                          subst hr
                          refine ⟨?_, ?_⟩
                          · simp only [hca]
                            constructor
                            · intro habs
                              exact absurd habs (by simp)
                            · intro hex
                              exact absurd ((hiff _).mpr hex) hf
                          · simp only [hca]
                    | some c =>
                        simp only at hres
                        have hca2 : credsAt
                            (save_session
                              (alSet st1 (ensure_creds sess1).id (ensure_creds sess1))
                              { ensure_creds sess1 with
                                creds := some (alSet (credsOf (ensure_creds sess1)) t c) }
                              now).2
                            ({ ensure_creds sess1 with
                                creds := some (alSet (credsOf (ensure_creds sess1)) t c)
                              } : Session).id
                            = alSet (credsOf (ensure_creds sess1)) t c := by
                          unfold credsAt
                          rw [alGet_save_session_self]
                          simp [credsOf]
                        by_cases hf : any_flow_completed flows
                            (alSet (credsOf (ensure_creds sess1)) t c)
                        · rw [if_pos hf] at hres
                          injection hres with hst hr
                          injection hr with hr
                          subst hst
                          subst hr
                          refine ⟨?_, ?_⟩
                          · simp only [save_session]
                            simp only [save_session] at hca2
                            simp only [hca2]
                            exact ⟨fun _ => (hiff _).mp hf, fun _ => trivial⟩
                          · simp only [save_session]
                            simp only [save_session] at hca2
                            simp only [hca2]
                        · rw [if_neg hf] at hres
                          injection hres with hst hr
                          injection hr with hr
                          subst hst
                          subst hr
                          refine ⟨?_, ?_⟩
                          · simp only [save_session]
                            simp only [save_session] at hca2
                            simp only [hca2]
                            constructor
                            · intro habs
                              exact absurd habs (by simp)
                            · intro hex
                              exact absurd ((hiff _).mpr hex) hf
                          · simp only [save_session]
                            simp only [save_session] at hca2
                            simp only [hca2]

theorem store_restore_empty (st : Table) (sess : Session) (now : Int) (P : Params)
    (hcd : sess.clientdict = some P) :
    store_or_restore_params st sess [] now = (P, sess, st) := by
  simp [store_or_restore_params, hcd]

/-- Closed form of a `check_auth` call carrying no `auth` block and
non-empty non-auth parameters: a fresh session is created, the parameters
are stored into its `clientdict`, the session is saved, and a not-complete
flow advertisement is returned. -/
theorem check_auth_first_call_stores (checkers : CheckerMap) (pk ip fresh : String)
    (now : Int) (flows : List (List String)) (st : Table) (P : Params)
    (hP : P ≠ []) :
    check_auth checkers pk now fresh flows { auth := none, params := P } ip st
      = ((save_session (alSet st fresh (blank_session fresh))
            { blank_session fresh with clientdict := some P } now).2,
         Except.ok { authed := false, creds := [],
                     response := some (auth_dict_for_flows pk flows fresh),
                     params := P, sid := fresh }) := by
  cases P with
  | nil => exact absurd rfl hP
  | cons ph pt => rfl

/-- A `check_auth` call that carries only a session id (empty non-auth
parameters, no stage type) against a session with a stored `clientdict`
restores the stored parameters into the returned working params. -/
theorem check_auth_restores_stored (checkers : CheckerMap) (pk ip fresh : String)
    (now : Int) (flows : List (List String)) (st : Table) (s : String)
    (sess : Session) (P fields : Params) (hne : s ≠ "")
    (hfound : alGet st s = some sess) (hcd : sess.clientdict = some P) :
    ∃ st2 r, check_auth checkers pk now fresh flows
        { auth := some { session := some s, atype := none, fields := fields },
          params := [] } ip st
      = (st2, Except.ok r) ∧ r.params = P := by
  have hgsi : get_session_info st (some s) fresh = (sess, st) := by
    simp [get_session_info, hfound, hne]
  unfold check_auth
  simp only [hgsi, store_restore_empty st sess now P hcd]
  by_cases hf : any_flow_completed flows (credsOf (ensure_creds sess))
  · rw [if_pos hf]
    exact ⟨_, _, rfl, rfl⟩
  · rw [if_neg hf]
    exact ⟨_, _, rfl, rfl⟩

/-- C7: submitting non-empty non-auth parameters `P` on a first
`check_auth` call (which stores them in the clientdict of the fresh session)
and omitting them on a later call that carries only that session id yields
the same effective parameter set on both calls: the returned
working params equal the stored `clientdict`, namely `P`. -/
theorem check_auth_params_consistency (checkers : CheckerMap)
    (pk ip1 ip2 fresh1 fresh2 : String) (now1 now2 : Int)
    (flows1 flows2 : List (List String)) (st : Table) (P fields : Params)
    (hP : P ≠ []) (hne : fresh1 ≠ "") :
    ∃ st1 r1, check_auth checkers pk now1 fresh1 flows1
        { auth := none, params := P } ip1 st = (st1, Except.ok r1) ∧
      r1.params = P ∧ r1.sid = fresh1 ∧
      ∃ st2 r2, check_auth checkers pk now2 fresh2 flows2
          { auth := some { session := some fresh1, atype := none, fields := fields },
            params := [] } ip2 st1 = (st2, Except.ok r2) ∧
        r2.params = P := by
  refine ⟨_, _, check_auth_first_call_stores checkers pk ip1 fresh1 now1 flows1 st P hP,
    rfl, rfl, ?_⟩
  have hlook : alGet (save_session (alSet st fresh1 (blank_session fresh1))
      { blank_session fresh1 with clientdict := some P } now1).2 fresh1
      = some { id := fresh1, clientdict := some P, creds := none,
               serverdict := none, last_used := some now1 } := by
    have h6 := alGet_save_session_self (alSet st fresh1 (blank_session fresh1))
      { blank_session fresh1 with clientdict := some P } now1
    simpa [blank_session] using h6
  exact check_auth_restores_stored checkers pk ip2 fresh2 now2 flows2 _ fresh1
    _ P fields hne hlook rfl

theorem check_auth_params_consistency_witness :
    ∃ st1 r1, check_auth (fun _ => none) "pk" 10 "S1" [["x"]]
        { auth := none, params := [("k", "v")] } "ip" [] = (st1, Except.ok r1) ∧
      r1.params = [("k", "v")] ∧ r1.sid = "S1" ∧
      ∃ st2 r2, check_auth (fun _ => none) "pk" 20 "S2" [["x"]]
          { auth := some { session := some "S1", atype := none, fields := [] },
            params := [] } "ip" st1 = (st2, Except.ok r2) ∧
        r2.params = [("k", "v")] := by
  exact check_auth_params_consistency (fun _ => none) "pk" "ip" "ip" "S1" "S2"
    10 20 [["x"]] [["x"]] [] [("k", "v")] [] (by decide) (by decide)

/-- Concrete registry with only the dummy checker, used to exercise
`check_auth_completion_iff`. -/
def c1checkers : CheckerMap := fun t =>
  if t = LoginType.DUMMY then some (fun _ _ => Except.ok (some (Cred.boolVal true)))
  else none

/-- Concrete auth dict presenting the dummy stage on session `S1`. -/
def c1auth : AuthDict :=
  { session := some "S1", atype := some LoginType.DUMMY, fields := [] }

/-- Session table after the concrete dummy-stage call. -/
def c1st2 : Table :=
  [("S1", { id := "S1", clientdict := none,
            creds := some [(LoginType.DUMMY, Cred.boolVal true)],
            serverdict := none, last_used := some 2000 })]

/-- Result of the concrete dummy-stage call. -/
def c1res : CheckAuthResult :=
  { authed := true, creds := [(LoginType.DUMMY, Cred.boolVal true)],
    response := none, params := [], sid := "S1" }

theorem check_auth_completion_iff_witness :
    (c1res.authed = true ↔
        ∃ f ∈ [[LoginType.DUMMY]], ∀ stage ∈ f,
          (alGet (credsAt c1st2 c1res.sid) stage).isSome) ∧
      c1res.creds = credsAt c1st2 c1res.sid := by
  exact check_auth_completion_iff c1checkers "pk" "ip" "S2" 2000 [[LoginType.DUMMY]]
    { auth := some c1auth, params := [] } c1auth
    [("S1", blank_session "S1")] c1st2 c1res rfl rfl

/-- Concrete session used to exercise `check_auth_checker_outcome_creds`. -/
def c2sess : Session :=
  { id := "S", clientdict := none, creds := some [("done", Cred.boolVal true)],
    serverdict := none, last_used := some 0 }

/-- Concrete checker error used to exercise `check_auth_checker_outcome_creds`. -/
def c2err : LoginError := { code := 401, msg := "", errcode := Codes.UNAUTHORIZED }

/-- Concrete always-raising checker. -/
def c2chk : Checker := fun _ _ => Except.error c2err

/-- Concrete one-entry checker registry. -/
def c2checkers : CheckerMap := fun t => if t = "stage" then some c2chk else none

/-- Concrete auth dict presenting stage `stage` on session `S`. -/
def c2auth : AuthDict := { session := some "S", atype := some "stage", fields := [] }

theorem check_auth_checker_outcome_creds_witness :
    (∀ e, c2chk c2auth "ip" = Except.error e →
        (Except.error c2err : Except LoginError CheckAuthResult) = Except.error e ∧
          credsAt [("S", c2sess)] "S" = credsOf c2sess) ∧
      (c2chk c2auth "ip" = Except.ok none →
        (∃ r, (Except.error c2err : Except LoginError CheckAuthResult) = Except.ok r) ∧
          credsAt [("S", c2sess)] "S" = credsOf c2sess) ∧
      (∀ c, c2chk c2auth "ip" = Except.ok (some c) →
        (∃ r, (Except.error c2err : Except LoginError CheckAuthResult) = Except.ok r) ∧
          credsAt [("S", c2sess)] "S" = alSet (credsOf c2sess) "stage" c ∧
          (∃ sess2, alGet [("S", c2sess)] "S" = some sess2 ∧
            sess2.last_used = some 7)) := by
  exact check_auth_checker_outcome_creds c2checkers "pk" "ip" "F" 7 []
    { auth := some c2auth, params := [] } c2auth "S" "stage" c2chk
    [("S", c2sess)] [("S", c2sess)] (Except.error c2err) c2sess
    rfl rfl (by decide) rfl rfl rfl rfl rfl

/-- C3: saving session B at time `now` removes a different, previously saved
session A (stamped `last_used = tA`) from the table exactly when
`tA < now - SESSION_EXPIRE_MS`, i.e. when A is older than 48 hours;
a younger A survives the sweep. -/
theorem save_prunes_other_session_iff (st : Table) (sA sB : Session) (a : String)
    (tA now : Int) (hmem : (a, sA) ∈ st) (hne : a ≠ sB.id)
    (hlu : sA.last_used = some tA) :
    (a, sA) ∉ (save_session st sB now).2 ↔ tA < now - SESSION_EXPIRE_MS := by
  unfold save_session prune_sessions
  simp only [List.mem_filter, not_and, Bool.not_eq_true, Bool.not_eq_false]
  rw [mem_alSet_ne st sB.id a _ sA hne]
  simp [hmem, hlu]

theorem save_prunes_other_session_iff_witness :
    (("A", { blank_session "A" with last_used := some 0 }) ∈
        ([("A", { blank_session "A" with last_used := some 0 })] : Table)) ∧
      ("A" ≠ (blank_session "B").id) ∧
      ((("A", { blank_session "A" with last_used := some 0 }) ∉
          (save_session [("A", { blank_session "A" with last_used := some 0 })]
            (blank_session "B") (SESSION_EXPIRE_MS + 1)).2) ↔
        (0 : Int) < (SESSION_EXPIRE_MS + 1) - SESSION_EXPIRE_MS) := by
  refine ⟨by decide, by decide, ?_⟩
  exact save_prunes_other_session_iff
    [("A", { blank_session "A" with last_used := some 0 })]
    { blank_session "A" with last_used := some 0 } (blank_session "B") "A" 0
    (SESSION_EXPIRE_MS + 1) (by decide) (by decide) rfl

/-- C10: a session record created by `_get_session_info` carries no
`last_used` stamp, and the prune sweep reads an absent stamp as 0; hence,
whenever the wall clock is past `SESSION_EXPIRE_MS` (48 hours after the
epoch, always true in practice), the very next save of any other session
deletes the never-saved record regardless of when it was created. -/
theorem never_saved_session_pruned_on_next_save (st : Table) (sA sB : Session)
    (a fresh : String) (now : Int) (hmem : (a, sA) ∈ st) (hne : a ≠ sB.id)
    (hlu : sA.last_used = none) (hclock : SESSION_EXPIRE_MS < now) :
    (get_session_info st none fresh).1.last_used = none ∧
      (a, sA) ∉ (save_session st sB now).2 := by
  constructor
  · rfl
  · unfold save_session prune_sessions
    simp only [List.mem_filter, not_and, Bool.not_eq_true, Bool.not_eq_false]
    rw [mem_alSet_ne st sB.id a _ sA hne]
    intro _
    simp [hlu]
    omega

theorem never_saved_session_pruned_on_next_save_witness :
    (("A", blank_session "A") ∈ ([("A", blank_session "A")] : Table)) ∧
      ("A" ≠ (blank_session "B").id) ∧
      (blank_session "A").last_used = none ∧
      SESSION_EXPIRE_MS < SESSION_EXPIRE_MS + 1 ∧
      ((get_session_info [("A", blank_session "A")] none "C").1.last_used = none ∧
        ("A", blank_session "A") ∉
          (save_session [("A", blank_session "A")] (blank_session "B")
            (SESSION_EXPIRE_MS + 1)).2) := by
  refine ⟨by decide, by decide, rfl, by decide, ?_⟩
  exact never_saved_session_pruned_on_next_save [("A", blank_session "A")]
    (blank_session "A") (blank_session "B") "A" "C" (SESSION_EXPIRE_MS + 1)
    (by decide) (by decide) rfl (by decide)

/-! ## Token service (macaroon construction and validation) -/

/-- A macaroon as built by `auth.py`: only the ordered first-party caveat
list is in scope (the spec puts transport and signature internals of the
token format out of scope).  `serialize()` is therefore the identity on
this representation. -/
structure Macaroon where
  location : String
  identifier : String
  key : String
  caveats : List String
deriving DecidableEq, Repr

/-- `macaroon.add_first_party_caveat(c)`: appends `c` to the caveat list. -/
def Macaroon.add_first_party_caveat (m : Macaroon) (c : String) : Macaroon :=
  { m with caveats := m.caveats ++ [c] }

/-- `_generate_base_macaroon(user_id)`: fresh macaroon with caveats
`gen = 1` then `user_id = <id>`. -/
def generate_base_macaroon (server_name secret_key user_id : String) : Macaroon :=
  ((Macaroon.mk server_name "key" secret_key []).add_first_party_caveat
      "gen = 1").add_first_party_caveat ("user_id = " ++ user_id)

/-- Default `duration_in_ms` of `generate_access_token`. -/
def access_token_default_duration_ms : Int := 60 * 60 * 1000

/-- Default `duration_in_ms` of `generate_short_term_login_token`. -/
def login_token_default_duration_ms : Int := 2 * 60 * 1000

/-- `generate_access_token`: base caveats, then `type = access`, then the
absolute expiry `time < now + duration`, then the extra caveats in order.
`now` is the reading of the clock collaborator at issuance. -/
def generate_access_token (server_name secret_key user_id : String)
    (extra_caveats : List String) (now duration_in_ms : Int) : Macaroon :=
  let macaroon := generate_base_macaroon server_name secret_key user_id
  let macaroon := macaroon.add_first_party_caveat "type = access"
  let expiry := now + duration_in_ms
  let macaroon := macaroon.add_first_party_caveat ("time < " ++ toString expiry)
  extra_caveats.foldl (fun m c => m.add_first_party_caveat c) macaroon

/-- `generate_refresh_token`: base caveats, then `type = refresh`, then a
random nonce (`random_string_with_symbols(16)` — supplied by the caller as
the output of the randomness collaborator). -/
def generate_refresh_token (server_name secret_key user_id nonce : String) : Macaroon :=
  let m := generate_base_macaroon server_name secret_key user_id
  let m := m.add_first_party_caveat "type = refresh"
  m.add_first_party_caveat ("nonce = " ++ nonce)

/-- `generate_short_term_login_token`: base caveats, then `type = login`,
then the absolute expiry `time < now + duration`. -/
def generate_short_term_login_token (server_name secret_key user_id : String)
    (now duration_in_ms : Int) : Macaroon :=
  let macaroon := generate_base_macaroon server_name secret_key user_id
  let macaroon := macaroon.add_first_party_caveat "type = login"
  let expiry := now + duration_in_ms
  macaroon.add_first_party_caveat ("time < " ++ toString expiry)

/-- `generate_delete_pusher_token`: base caveats, then `type = delete_pusher`. -/
def generate_delete_pusher_token (server_name secret_key user_id : String) : Macaroon :=
  let macaroon := generate_base_macaroon server_name secret_key user_id
  macaroon.add_first_party_caveat "type = delete_pusher"

/-- C4: every token generator appends its first-party caveats in the fixed
order: `gen = 1`, then `user_id = <id>`, then the kind caveat, then the
expiry caveat (access and login, whose default lifetimes are one hour and
two minutes) or the random nonce (refresh), then any extra caveats
(access only; the other kinds accept none). -/
theorem token_caveat_order (server_name secret_key user_id nonce : String)
    (extra_caveats : List String) (now dur : Int) :
    (generate_access_token server_name secret_key user_id extra_caveats now dur).caveats
        = ["gen = 1", "user_id = " ++ user_id, "type = access",
           "time < " ++ toString (now + dur)] ++ extra_caveats ∧
      (generate_refresh_token server_name secret_key user_id nonce).caveats
        = ["gen = 1", "user_id = " ++ user_id, "type = refresh",
           "nonce = " ++ nonce] ∧
      (generate_short_term_login_token server_name secret_key user_id now dur).caveats
        = ["gen = 1", "user_id = " ++ user_id, "type = login",
           "time < " ++ toString (now + dur)] ∧
      (generate_delete_pusher_token server_name secret_key user_id).caveats
        = ["gen = 1", "user_id = " ++ user_id, "type = delete_pusher"] ∧
      access_token_default_duration_ms = 60 * 60 * 1000 ∧
      login_token_default_duration_ms = 2 * 60 * 1000 := by
  refine ⟨?_, rfl, rfl, rfl, rfl, rfl⟩
  have hfold : ∀ (cs : List String) (m : Macaroon),
      (cs.foldl (fun m2 c => m2.add_first_party_caveat c) m).caveats
        = m.caveats ++ cs := by
    intro cs
    induction cs with
    | nil => intro m; simp
    | cons c rest ih =>
        intro m
        rw [List.foldl_cons, ih]
        simp [Macaroon.add_first_party_caveat]
  unfold generate_access_token
  rw [hfold]
  simp [generate_base_macaroon, Macaroon.add_first_party_caveat]

/-! ## Short-term login token validation (C8)

The deserialization primitive (`pymacaroons.Macaroon.deserialize`) and the
verification API (`self.hs.get_auth()`, i.e. `synapse.api.auth.Auth`) are
collaborators outside `src/`.  Modelled from the spec: validation
"deserializes the string, extracts the subject id, and delegates to a
verification collaborator to confirm `type=login` and non-expiry; any
malformed, mistyped, or expired token yields an unknown-token
authentication failure".  Each collaborator step therefore either succeeds
or fails with one of the exception kinds named in the `except` clause of
`validate_short_term_login_token_and_get_user_id`
(`pymacaroons.exceptions.MacaroonException`, `TypeError`, `ValueError`). -/

/-- The exception kinds raised by the deserialization/verification
collaborators, exactly the ones the `except` clause catches. -/
inductive CollabFault where
  | macaroonException (msg : String)
  | typeError (msg : String)
  | valueError (msg : String)
deriving DecidableEq, Repr

/-- `validate_short_term_login_token_and_get_user_id(login_token)`:
deserialize, extract the subject id, verify (`type=login`, non-expiry),
and convert every collaborator fault into
`AuthError(401, "Invalid token", UNKNOWN_TOKEN)`. -/
def validate_short_term_login_token_and_get_user_id
    (deserialize : String → Except CollabFault Macaroon)
    (get_user_id_from_macaroon : Macaroon → Except CollabFault String)
    (validate_macaroon : Macaroon → String → Bool → String → Except CollabFault Unit)
    (login_token : String) : Except AuthError String :=
  let attempt : Except CollabFault String :=
    match deserialize login_token with
    | Except.error e => Except.error e
    | Except.ok macaroon =>
        match get_user_id_from_macaroon macaroon with
        | Except.error e => Except.error e
        | Except.ok user_id =>
            match validate_macaroon macaroon "login" true user_id with
            | Except.error e => Except.error e
            | Except.ok _ => Except.ok user_id
  match attempt with
  | Except.ok user_id => Except.ok user_id
  | Except.error _ =>
      Except.error { code := 401, msg := "Invalid token", errcode := Codes.UNKNOWN_TOKEN }

/-- C8: for every token string and every behaviour of the deserialization
and verification collaborators, validation either returns the subject user
id of a token that deserialized, yielded a subject, and passed the
`type=login`/non-expiry verification, or fails with the 401 UNKNOWN_TOKEN
authentication error; no collaborator fault ever escapes unhandled. -/
theorem login_token_validation_total
    (deserialize : String → Except CollabFault Macaroon)
    (get_uid : Macaroon → Except CollabFault String)
    (validate_macaroon : Macaroon → String → Bool → String → Except CollabFault Unit)
    (login_token : String) :
    (∃ macaroon user_id,
        deserialize login_token = Except.ok macaroon ∧
        get_uid macaroon = Except.ok user_id ∧
        validate_macaroon macaroon "login" true user_id = Except.ok () ∧
        validate_short_term_login_token_and_get_user_id deserialize get_uid
          validate_macaroon login_token = Except.ok user_id) ∨
      validate_short_term_login_token_and_get_user_id deserialize get_uid
          validate_macaroon login_token
        = Except.error { code := 401, msg := "Invalid token",
                         errcode := Codes.UNKNOWN_TOKEN } := by
  unfold validate_short_term_login_token_and_get_user_id
  cases hd : deserialize login_token with
  | error e => simp [hd]
  | ok macaroon =>
      cases hu : get_uid macaroon with
      | error e => simp [hd, hu]
      | ok user_id =>
          cases hv : validate_macaroon macaroon "login" true user_id with
          | error e => simp [hd, hu, hv]
          | ok u =>
              left
              refine ⟨macaroon, user_id, rfl, hu, ?_, ?_⟩
              · cases u
                exact hv
              · simp [hd, hu, hv]

/-! ## Password hashing (C5, C6)

`bcrypt.hashpw` is an external primitive; it is passed in as a function
`hashpw : String → String → Except String String` mapping
`(peppered password, salt-bearing stored hash)` to the recomputed hash.
The `Except.error` case models the `ValueError` the bcrypt primitive
raises when the stored hash does not parse as a salt (e.g. "Invalid
salt"); `validate_hash` itself contains no exception handler, so such a
fault propagates out of it. -/

/-- `validate_hash(password, stored_hash)`: false for an empty (falsy)
stored hash; otherwise the result of comparing the recomputed peppered
hash against the stored hash, with any fault of the hashing primitive
propagating uncaught. -/
def validate_hash (hashpw : String → String → Except String String)
    (password_pepper password stored_hash : String) : Except String Bool :=
  if stored_hash ≠ "" then
    (hashpw (password ++ password_pepper) stored_hash).map
      (fun recomputed => recomputed == stored_hash)
  else
    Except.ok false

/-- C6 counterexample: for a hashing primitive that rejects a malformed
stored hash (as `bcrypt.hashpw` does, raising `ValueError("Invalid
salt")` for a string that does not embed a valid salt), `validate_hash`
raises rather than returning false at the concrete input
`password = "secret"`, `stored_hash = "not-a-bcrypt-hash"`: the claim that
it never raises and treats malformed input as a non-match is false. -/
theorem validate_hash_malformed_raises :
    validate_hash
        (fun _ stored => if stored = "$2b$12$abcdefghijklmnopqrstuv"
          then Except.ok "$2b$12$abcdefghijklmnopqrstuv" else Except.error "Invalid salt")
        "pepper" "secret" "not-a-bcrypt-hash"
      = Except.error "Invalid salt" := by
  rfl

/-- C6 (amended): `validate_hash` returns false immediately for an empty
stored hash; when the hashing primitive succeeds, it returns true exactly
when the recomputed peppered hash equals the stored hash; and when the
primitive rejects the stored hash (malformed salt) the fault propagates
out of `validate_hash` uncaught — totality holds only on the paths where
the primitive itself returns. -/
theorem validate_hash_spec (hashpw : String → String → Except String String)
    (pepper password stored_hash : String) :
    (validate_hash hashpw pepper password stored_hash = Except.ok true ↔
        stored_hash ≠ "" ∧
          hashpw (password ++ pepper) stored_hash = Except.ok stored_hash) ∧
      (stored_hash = "" →
        validate_hash hashpw pepper password stored_hash = Except.ok false) ∧
      (∀ e, stored_hash ≠ "" → hashpw (password ++ pepper) stored_hash = Except.error e →
        validate_hash hashpw pepper password stored_hash = Except.error e) := by
  refine ⟨?_, ?_, ?_⟩
  · by_cases h : stored_hash = ""
    · simp [validate_hash, h]
    · cases hh : hashpw (password ++ pepper) stored_hash with
      | error e => simp [validate_hash, h, Except.map, hh]
      | ok recomputed => simp [validate_hash, h, Except.map, hh, beq_iff_eq]
  · intro h
    simp [validate_hash, h]
  · intro e h hh
    simp [validate_hash, h, Except.map, hh]

theorem validate_hash_spec_witness :
    ((validate_hash (fun p _ => Except.ok ("h:" ++ p)) "pep" "pw" "h:pwpep"
          = Except.ok true ↔
        ("h:pwpep" : String) ≠ "" ∧
          (fun (p : String) (_ : String) => Except.ok ("h:" ++ p) :
            String → String → Except String String) ("pw" ++ "pep") "h:pwpep"
            = Except.ok "h:pwpep") ∧
      (("h:pwpep" : String) = "" →
        validate_hash (fun p _ => Except.ok ("h:" ++ p)) "pep" "pw" "h:pwpep"
          = Except.ok false) ∧
      (∀ e, ("h:pwpep" : String) ≠ "" →
        (fun (p : String) (_ : String) => Except.ok ("h:" ++ p) :
          String → String → Except String String) ("pw" ++ "pep") "h:pwpep"
          = Except.error e →
        validate_hash (fun p _ => Except.ok ("h:" ++ p)) "pep" "pw" "h:pwpep"
          = Except.error e)) := by
  exact validate_hash_spec (fun p _ => Except.ok ("h:" ++ p)) "pep" "pw" "h:pwpep"

/-! ## Local password verification (C5)

`self.store.get_users_by_id_case_insensitive(user_id)` is an external
account-store collaborator returning a dict mapping each case-insensitive
matching user id to its stored password hash; its result is passed in as
the association list `user_infos`. -/

/-- `_find_user_id_and_pwd_hash(user_id)` applied to the result of the store lookup:
no match is a 403; more than one match resolves to the exact-case entry
when present and is otherwise a 403; a single match is returned as is
(`popitem` on a one-entry dict). -/
def find_user_id_and_pwd_hash (user_infos : List (String × String))
    (user_id : String) : Except LoginError (String × String) :=
  match user_infos with
  | [] => Except.error { code := 403, msg := "", errcode := Codes.FORBIDDEN }
  | [entry] => Except.ok entry
  | _ =>
      match alGet user_infos user_id with
      | none => Except.error { code := 403, msg := "", errcode := Codes.FORBIDDEN }
      | some pwd_hash => Except.ok (user_id, pwd_hash)

/-- Error raised by `_check_local_password`: a `LoginError`, or an
uncaught fault propagating from the hashing primitive. -/
inductive PwCheckErr where
  | login (e : LoginError)
  | hashFault (msg : String)
deriving DecidableEq, Repr

/-- `_check_local_password(user_id, password)`: resolve the canonical id
and stored hash, verify with `validate_hash`; a false result is a 403,
a true result yields the canonical id. -/
def check_local_password (hashpw : String → String → Except String String)
    (pepper : String) (user_infos : List (String × String))
    (user_id password : String) : Except PwCheckErr String :=
  match find_user_id_and_pwd_hash user_infos user_id with
  | Except.error e => Except.error (PwCheckErr.login e)
  | Except.ok (canonical_id, pwd_hash) =>
      match validate_hash hashpw pepper password pwd_hash with
      | Except.error m => Except.error (PwCheckErr.hashFault m)
      | Except.ok false =>
          Except.error (PwCheckErr.login
            { code := 403, msg := "", errcode := Codes.FORBIDDEN })
      | Except.ok true => Except.ok canonical_id

/-- C5: local password verification against the case-insensitive store
result: zero matches is a 403-forbidden failure; multiple matches resolve
to the exact-case id when it is among them and are otherwise forbidden; a
resolved hash that fails verification (including the absent/empty hash) is
forbidden; a hash that verifies yields the canonical user id. -/
theorem local_password_verification_spec
    (hashpw : String → String → Except String String) (pepper : String)
    (user_infos : List (String × String)) (user_id password : String) :
    (user_infos = [] →
        check_local_password hashpw pepper user_infos user_id password
          = Except.error (PwCheckErr.login
              { code := 403, msg := "", errcode := Codes.FORBIDDEN })) ∧
      (1 < user_infos.length → alGet user_infos user_id = none →
        check_local_password hashpw pepper user_infos user_id password
          = Except.error (PwCheckErr.login
              { code := 403, msg := "", errcode := Codes.FORBIDDEN })) ∧
      (∀ pwd_hash, 1 < user_infos.length → alGet user_infos user_id = some pwd_hash →
        find_user_id_and_pwd_hash user_infos user_id = Except.ok (user_id, pwd_hash)) ∧
      (∀ canonical_id pwd_hash,
        find_user_id_and_pwd_hash user_infos user_id = Except.ok (canonical_id, pwd_hash) →
        validate_hash hashpw pepper password pwd_hash = Except.ok false →
        check_local_password hashpw pepper user_infos user_id password
          = Except.error (PwCheckErr.login
              { code := 403, msg := "", errcode := Codes.FORBIDDEN })) ∧
      (∀ canonical_id pwd_hash,
        find_user_id_and_pwd_hash user_infos user_id = Except.ok (canonical_id, pwd_hash) →
        validate_hash hashpw pepper password pwd_hash = Except.ok true →
        check_local_password hashpw pepper user_infos user_id password
          = Except.ok canonical_id) := by
  refine ⟨?_, ?_, ?_, ?_, ?_⟩
  · intro h
    subst h
    rfl
  · intro hlen hget
    match user_infos, hlen with
    | e1 :: e2 :: rest, _ =>
        simp [check_local_password, find_user_id_and_pwd_hash, hget]
  · intro pwd_hash hlen hget
    match user_infos, hlen with
    | e1 :: e2 :: rest, _ =>
        simp [find_user_id_and_pwd_hash, hget]
  · intro canonical_id pwd_hash hfind hv
    simp [check_local_password, hfind, hv]
  · intro canonical_id pwd_hash hfind hv
    simp [check_local_password, hfind, hv]

theorem local_password_verification_spec_witness :
    ((([("@bob:hs", "h:pwpep")] : List (String × String)) = [] →
        check_local_password (fun p _ => Except.ok ("h:" ++ p)) "pep"
            [("@bob:hs", "h:pwpep")] "@Bob:hs" "pw"
          = Except.error (PwCheckErr.login
              { code := 403, msg := "", errcode := Codes.FORBIDDEN })) ∧
      (1 < ([("@bob:hs", "h:pwpep")] : List (String × String)).length →
        alGet [("@bob:hs", "h:pwpep")] "@Bob:hs" = none →
        check_local_password (fun p _ => Except.ok ("h:" ++ p)) "pep"
            [("@bob:hs", "h:pwpep")] "@Bob:hs" "pw"
          = Except.error (PwCheckErr.login
              { code := 403, msg := "", errcode := Codes.FORBIDDEN })) ∧
      (∀ pwd_hash, 1 < ([("@bob:hs", "h:pwpep")] : List (String × String)).length →
        alGet [("@bob:hs", "h:pwpep")] "@Bob:hs" = some pwd_hash →
        find_user_id_and_pwd_hash [("@bob:hs", "h:pwpep")] "@Bob:hs"
          = Except.ok ("@Bob:hs", pwd_hash)) ∧
      (∀ canonical_id pwd_hash,
        find_user_id_and_pwd_hash [("@bob:hs", "h:pwpep")] "@Bob:hs"
          = Except.ok (canonical_id, pwd_hash) →
        validate_hash (fun p _ => Except.ok ("h:" ++ p)) "pep" "pw" pwd_hash
          = Except.ok false →
        check_local_password (fun p _ => Except.ok ("h:" ++ p)) "pep"
            [("@bob:hs", "h:pwpep")] "@Bob:hs" "pw"
          = Except.error (PwCheckErr.login
              { code := 403, msg := "", errcode := Codes.FORBIDDEN })) ∧
      (∀ canonical_id pwd_hash,
        find_user_id_and_pwd_hash [("@bob:hs", "h:pwpep")] "@Bob:hs"
          = Except.ok (canonical_id, pwd_hash) →
        validate_hash (fun p _ => Except.ok ("h:" ++ p)) "pep" "pw" pwd_hash
          = Except.ok true →
        check_local_password (fun p _ => Except.ok ("h:" ++ p)) "pep"
            [("@bob:hs", "h:pwpep")] "@Bob:hs" "pw"
          = Except.ok canonical_id)) := by
  exact local_password_verification_spec (fun p _ => Except.ok ("h:" ++ p)) "pep"
    [("@bob:hs", "h:pwpep")] "@Bob:hs" "pw"

end SynapseAuth
